import Mathlib

/-!
Verification development for the encrypted memory persistence layer
(`ArkivStorageService` in `src/lib/golem-storage.ts`, `KeyManagementService`
in the key-management module, `EncryptionService` in `src/lib/chat-service.ts`).

Modelling conventions:
* The remote entity store, reachable only over RPC, is modelled as an
  explicit environment (`RemoteEnv`) whose operations return `Except Unit _`
  (an exception from the RPC client is `.error ()`).
* JSON payload decoding is abstracted to its outcome: an entity carries
  `value : Option (Option Memory)` where `none` means the bulk listing
  returned no inline payload, `some none` means a payload was present but
  failed to decode (bad JSON, missing id, undecodable hex), and
  `some (some m)` means the payload decodes to the memory `m`.  The
  `toText()` rescue path used when an individually fetched entity still has
  no `value` is modelled by `textWhenNoValue`.
* Randomness (`crypto.getRandomValues`, `CryptoJS.lib.WordArray.random`,
  `Date.now`) is modelled by explicit `fresh…` / `now` parameters: the
  TypeScript functions are deterministic in their inputs plus the sampled
  random draws.
* Mutable instance fields (`individualFetchFailures`, `skipIndividualFetch`,
  `entityKeys`) become an explicit state record threaded through the
  operations; the service is modelled after successful initialization.
-/

/-- A decoded memory record (`MemoryEntry`), restricted to the fields the
retrieval, search and statistics paths inspect: id, content, type, category,
tags, the access-policy owner, and the optional `metadata.size`. -/
structure Memory where
  id : String
  content : String
  type : String
  category : String
  tags : List String
  owner : String
  metaSize : Option Nat
  deriving DecidableEq, Repr

/-- A raw entity as returned by the remote store.  `value` is the decode
outcome of the inline payload (see the module comment).  `textWhenNoValue`
is the outcome of the `toText()` rescue attempt performed when an
individually fetched entity still lacks a `value`: `none` means `toText()`
is absent, throws, or returns a falsy string (the failure counter keeps its
increment); `some parsed` means `toText()` returned a truthy string — the
program then resets the failure counter to zero BEFORE `JSON.parse`, and
`parsed` is the parse outcome (`some m` on success, `none` when the parse
throws and the entity resolves to absent anyway). -/
structure Entity where
  key : String
  value : Option (Option Memory)
  textWhenNoValue : Option (Option Memory)
  deriving DecidableEq, Repr

/-- The mutable instance state of `ArkivStorageService`: the local key index
(`entityKeys`, a set kept in insertion order), and the circuit-breaker
fields `individualFetchFailures` / `skipIndividualFetch`. -/
structure ArkivState where
  entityKeys : List String
  individualFetchFailures : Nat
  skipIndividualFetch : Bool
  deriving DecidableEq, Repr

/-- The remote entity store and RPC client, as seen by the adapter.
`listOwnedPayload` is the owner query issued by `searchMemories`
(`withPayload(true)`, single page); `listOwnedAll` is the owner query issued
by `getAllEntityKeys` (`fetchAll`, no payload); `getEntity` is the point
fetch; `deleteEntity` and `createEntity` are the write operations. -/
structure RemoteEnv where
  listOwnedPayload : Except Unit (List Entity)
  listOwnedAll : Except Unit (List Entity)
  getEntity : String → Except Unit Entity
  deleteEntity : String → Except Unit Unit
  createEntity : Memory → Except Unit (String × String)

/-- Result of one `entityToMemory` call: the converted memory (or `none`),
the updated breaker state, and whether an individual recovery fetch was
attempted on the remote store. -/
structure StepResult where
  result : Option Memory
  state : ArkivState
  fetched : Bool
  deriving DecidableEq, Repr

/-- `ArkivStorageService.entityToMemory` (golem-storage.ts lines 113–237).
If the entity has no inline payload: return `none` immediately when the
breaker has tripped; otherwise fetch the entity individually.  A fetch that
throws, or returns an entity still lacking a value, increments the
consecutive-failure counter, and the breaker trips when the counter reaches
5.  A fetch whose entity carries a value resets the counter.  When the
value is still missing but `toText()` returns a truthy string, the counter
is reset to zero (after the trip check) BEFORE the string is parsed — so
even a truthy-but-unparseable `toText()` result, whose entity resolves to
absent, leaves the counter reset rather than incremented (lines 147–151;
the parse failure is swallowed and `null` is returned).  Entities with an
inline payload are decoded without touching the breaker. -/
def entityToMemory (env : RemoteEnv) (st : ArkivState) (e : Entity) : StepResult :=
  match e.value with
  | some d => ⟨d, st, false⟩
  | none =>
    if st.skipIndividualFetch then ⟨none, st, false⟩
    else
      match env.getEntity e.key with
      | .error _ =>
        let n := st.individualFetchFailures + 1
        ⟨none, { st with individualFetchFailures := n,
                         skipIndividualFetch := st.skipIndividualFetch || decide (n ≥ 5) }, true⟩
      | .ok full =>
        match full.value with
        | some d => ⟨d, { st with individualFetchFailures := 0 }, true⟩
        | none =>
          let n := st.individualFetchFailures + 1
          let tripped := st.skipIndividualFetch || decide (n ≥ 5)
          match full.textWhenNoValue with
          | some parsed => ⟨parsed, { st with individualFetchFailures := 0,
                                              skipIndividualFetch := tripped }, true⟩
          | none => ⟨none, { st with individualFetchFailures := n,
                                     skipIndividualFetch := tripped }, true⟩

/-- The `entities.map(entityToMemory)` / `filter(Boolean)` stage of
`searchMemories`, threading the breaker state through the batch in arrival
order and dropping entities that convert to `null`. -/
def convertEntities (env : RemoteEnv) : ArkivState → List Entity → List Memory × ArkivState
  | st, [] => ([], st)
  | st, e :: es =>
    let r := entityToMemory env st e
    let rest := convertEntities env r.state es
    (match r.result with
     | some m => m :: rest.1
     | none => rest.1, rest.2)

/-- `ArkivStorageService.retrieveMemory`: point fetch followed by
`entityToMemory`; any exception is caught and yields `null`. -/
def retrieveMemory (env : RemoteEnv) (st : ArkivState) (key : String) : Option Memory × ArkivState :=
  match env.getEntity key with
  | .error _ => (none, st)
  | .ok e =>
    let r := entityToMemory env st e
    (r.result, r.state)

/-- `ArkivStorageService.getAllEntityKeys`: enumerate all owned entities,
replace the local key index with the keys found; if the enumeration throws,
fall back to the cached keys when the cache is non-empty, else return the
empty list (the cache is left unchanged on the error path). -/
def getAllEntityKeys (env : RemoteEnv) (st : ArkivState) : List String × ArkivState :=
  match env.listOwnedAll with
  | .ok entities =>
    let keys := entities.map (·.key)
    (keys, { st with entityKeys := keys.dedup })
  | .error _ =>
    if st.entityKeys ≠ [] then (st.entityKeys, st) else ([], st)

/-- The point-fetch loop of `getAllMemoriesDirectly`: fetch every key
individually, keep the successful conversions, absorb per-key failures. -/
def memoriesFromKeys (env : RemoteEnv) : ArkivState → List String → List Memory × ArkivState
  | st, [] => ([], st)
  | st, k :: ks =>
    let r := retrieveMemory env st k
    let rest := memoriesFromKeys env r.2 ks
    (match r.1 with
     | some m => m :: rest.1
     | none => rest.1, rest.2)

/-- `ArkivStorageService.getAllMemoriesDirectly`. -/
def getAllMemoriesDirectly (env : RemoteEnv) (st : ArkivState) : List Memory × ArkivState :=
  let r := getAllEntityKeys env st
  memoriesFromKeys env r.2 r.1

/-- Lower-case a string character by character (JavaScript `toLowerCase`
restricted to the character-wise case mapping). -/
def lowerStr (s : String) : String :=
  String.map Char.toLower s

/-- Substring containment test (JavaScript `String.includes`). -/
def containsSub (hay needle : String) : Bool :=
  hay.data.tails.any (fun suf => needle.data.isPrefixOf suf)

/-- The search filter of `searchMemories` / `searchMemoriesFallback`: an
empty search text matches everything; otherwise the lower-cased
concatenation of content, category, type and tags must contain the
lower-cased search text. -/
def matchesSearch (searchText : String) (m : Memory) : Bool :=
  if searchText = "" then true
  else containsSub (lowerStr (String.intercalate " " ([m.content, m.category, m.type] ++ m.tags)))
        (lowerStr searchText)

/-- `ArkivStorageService.searchMemoriesFallback`: retrieve all memories via
`getAllMemoriesDirectly`, apply the search filter, truncate to `limit`.
All internal failures are absorbed. -/
def searchMemoriesFallback (env : RemoteEnv) (st : ArkivState) (searchText : String)
    (limit : Nat) : List Memory × ArkivState :=
  let r := getAllMemoriesDirectly env st
  ((r.1.filter (matchesSearch searchText)).take limit, r.2)

/-- JavaScript truthiness of the optional `owner` argument. -/
def ownerTruthy : Option String → Bool
  | some o => o ≠ ""
  | none => false

/-- `ArkivStorageService.searchMemories` (golem-storage.ts lines 384–455).
Primary tier: one owner query with payload; convert each entity (absorbing
per-entity failures); apply the text filter; when a truthy owner is given,
return the owner-filtered result truncated to `limit`.  Otherwise truncate,
and if the result is empty and the breaker has not tripped, run the
fallback tier, returning its result when non-empty.  When the owner query
itself throws, the outer catch runs the fallback tier and returns its
result when non-empty, else the empty list: `searchMemories` never
propagates an exception. -/
def searchMemories (env : RemoteEnv) (st : ArkivState) (searchText : String)
    (owner : Option String) (limit : Nat) : List Memory × ArkivState :=
  match env.listOwnedPayload with
  | .error _ =>
    let fb := searchMemoriesFallback env st searchText limit
    (if fb.1.length > 0 then fb.1 else [], fb.2)
  | .ok entities =>
    let conv := convertEntities env st entities
    let filtered := conv.1.filter (matchesSearch searchText)
    if ownerTruthy owner then
      ((filtered.filter (fun m =>
          lowerStr m.owner = lowerStr ((owner.getD "")))).take limit, conv.2)
    else
      let result := filtered.take limit
      if result.length = 0 && !conv.2.skipIndividualFetch then
        let fb := searchMemoriesFallback env conv.2 searchText limit
        if fb.1.length > 0 then (fb.1, fb.2) else (result, fb.2)
      else (result, conv.2)

/-- Insert a key into the local key index (`Set.add`: no effect when the key
is already present, appended in insertion order otherwise). -/
def indexAdd (l : List String) (k : String) : List String :=
  if k ∈ l then l else l ++ [k]

/-- Remove a key from the local key index (`Set.delete`). -/
def indexRemove (l : List String) (k : String) : List String :=
  l.filter (fun x => x ≠ k)

/-- The fields of `ArkivUploadResult` the claims inspect. -/
structure UploadResult where
  entityKey : String
  transactionHash : String
  deriving DecidableEq, Repr

/-- `ArkivStorageService.uploadMemory`: submit a create; on success add the
returned entity key to the local key index and return it.  A failure of the
remote create propagates to the caller. -/
def uploadMemory (env : RemoteEnv) (st : ArkivState) (m : Memory) :
    Except Unit (UploadResult × ArkivState) :=
  match env.createEntity m with
  | .error e => .error e
  | .ok (entityKey, txHash) =>
    .ok (⟨entityKey, txHash⟩, { st with entityKeys := indexAdd st.entityKeys entityKey })

/-- `ArkivStorageService.deleteMemory`: submit a delete; on success evict
the key from the local key index and return `true`; any failure is caught,
the local index is left unchanged, and `false` is returned. -/
def deleteMemory (env : RemoteEnv) (st : ArkivState) (entityKey : String) :
    Bool × ArkivState :=
  match env.deleteEntity entityKey with
  | .ok _ => (true, { st with entityKeys := indexRemove st.entityKeys entityKey })
  | .error _ => (false, st)

/-- JavaScript `Math.round` of the non-negative rational `sum / len`
(`len > 0`): half-values round up. -/
def jsRound (sum len : Nat) : Nat :=
  (2 * sum + len) / (2 * len)

/-- The sampling loop of `getStorageStats`: fetch each sampled key and
accumulate the truthy `metadata.size` values. -/
def sampleSizes (env : RemoteEnv) : ArkivState → List String → Nat × ArkivState
  | st, [] => (0, st)
  | st, k :: ks =>
    let r := retrieveMemory env st k
    let rest := sampleSizes env r.2 ks
    ((match r.1 with
      | some m => m.metaSize.getD 0
      | none => 0) + rest.1, rest.2)

/-- The statistics record returned by `getStorageStats`. -/
structure StorageStats where
  totalMemories : Nat
  totalSize : Nat
  pinnedMemories : Nat
  deriving DecidableEq, Repr

/-- `ArkivStorageService.getStorageStats` (golem-storage.ts lines 540–561):
sample the first 20 known keys, average their metadata sizes, and
extrapolate the total size as average times the total key count. -/
def getStorageStats (env : RemoteEnv) (st : ArkivState) : StorageStats × ArkivState :=
  let r := getAllEntityKeys env st
  let sampleKeys := r.1.take 20
  let s := sampleSizes env r.2 sampleKeys
  let averageSize := if sampleKeys.length ≠ 0 then jsRound s.1 sampleKeys.length else 0
  (⟨r.1.length, averageSize * r.1.length, r.1.length⟩, s.2)

/-! ### Key management and envelope encryption -/

/-- An `EncryptionKey` as produced by `KeyManagementService` and
`EncryptionService`: legacy `publicKey` / `privateKey` field names holding
(symmetric) key material, the key id, algorithm label, creation time and
optional salt. -/
structure EncryptionKey where
  publicKey : String
  privateKey : String
  keyId : String
  algorithm : String
  createdAt : Nat
  salt : Option String
  deriving DecidableEq, Repr

/-- The external CryptoJS primitives used by `EncryptionService`,
abstracted to their interface: `pbkdf2 password saltHex iterations`
derives key material, `aesEnc` / `aesDec` are AES-CBC encryption and
decryption (`aesDec` returns the empty string when decryption fails to
produce valid UTF-8).  The `aes_roundtrip` field is the library's
documented contract: decrypting with the same derived key and IV returns
the original plaintext. -/
structure CryptoModel where
  pbkdf2 : String → String → Nat → String
  aesEnc : String → String → String → String
  aesDec : String → String → String → String
  aes_roundtrip : ∀ k iv m, aesDec k iv (aesEnc k iv m) = m

/-- Demonstration instance of the CryptoJS contract, used only to
instantiate counterexamples and witnesses at concrete inputs. -/
def demoCrypto : CryptoModel where
  pbkdf2 pw saltHex iters := String.intercalate ":" [pw, saltHex, toString iters]
  aesEnc _ _ m := m
  aesDec _ _ c := c
  aes_roundtrip := fun _ _ _ => rfl

/-- The configuration of `EncryptionService` (chat-service.ts lines
791–801), restricted to the fields the encrypt/decrypt paths read. -/
structure EncryptionConfig where
  algorithm : String
  keyDerivation : String
  iterations : Nat
  deriving DecidableEq, Repr

/-- The default `EncryptionConfig`. -/
def defaultConfig : EncryptionConfig :=
  ⟨"AES-256-GCM", "PBKDF2", 100000⟩

/-- The `EncryptedData` envelope returned by `EncryptionService.encrypt`. -/
structure EncryptedData where
  encryptedContent : String
  iv : String
  salt : String
  tag : String
  algorithm : String
  keyDerivation : String
  iterations : Nat
  deriving DecidableEq, Repr

/-- A key table (`Map<string, EncryptionKey>`); `set` prepends, `get` is
first-match lookup. -/
abbrev KeyMap : Type := List (String × EncryptionKey)

/-- `Map.set`. -/
def mapSet (m : KeyMap) (k : String) (v : EncryptionKey) : KeyMap :=
  (k, v) :: m

/-- `Map.get`. -/
def mapGet (m : KeyMap) (k : String) : Option EncryptionKey :=
  List.lookup k m

/-- The mutable state of `KeyManagementService`: the optional master key
and the session key cache. -/
structure KmsState where
  masterKey : Option String
  sessionKeys : KeyMap

/-- `KeyManagementService.getKey`. -/
def kmsGetKey (kms : KmsState) (keyId : String) : Option EncryptionKey :=
  mapGet kms.sessionKeys keyId

/-- JavaScript truthiness of an optional string (`undefined` and the empty
string are falsy). -/
def strTruthy : Option String → Bool
  | some s => s ≠ ""
  | none => false

/-- `KeyManagementService.generateSessionKey` (layout.tsx lines 82–99):
a random key (`freshKey` models the `crypto.getRandomValues` draw) stored
under the given key id when truthy, else under a freshly generated id. -/
def generateSessionKey (kms : KmsState) (keyId : Option String)
    (freshKey freshKeyId : String) (now : Nat) : EncryptionKey × KmsState :=
  let keyId_ := if strTruthy keyId then keyId.getD "" else freshKeyId
  let k : EncryptionKey :=
    ⟨freshKey, freshKey, keyId_, "AES-256-GCM", now, none⟩
  (k, { kms with sessionKeys := mapSet kms.sessionKeys keyId_ k })

/-- `KeyManagementService.generateMemoryKey` (layout.tsx lines 104–128):
fails when the master key is unset (or empty, which is falsy); otherwise
builds the key material `masterKey ++ "_" ++ memoryId ++ "_" ++ salt`,
using the supplied salt when truthy and a fresh random salt otherwise,
stores the key under `memory_<memoryId>` and returns it. -/
def generateMemoryKey (kms : KmsState) (memoryId : String) (salt : Option String)
    (freshSalt : String) (now : Nat) : Except String (EncryptionKey × KmsState) :=
  match kms.masterKey with
  | none => .error "Master key not initialized. Call initializeWithPassword() first."
  | some mk =>
    if mk = "" then
      .error "Master key not initialized. Call initializeWithPassword() first."
    else
      let keyId := "memory_" ++ memoryId
      let memorySalt := if strTruthy salt then salt.getD "" else freshSalt
      let keyMaterial := mk ++ "_" ++ memoryId ++ "_" ++ memorySalt
      let k : EncryptionKey :=
        ⟨keyMaterial, keyMaterial, keyId, "AES-256-GCM", now, some memorySalt⟩
      .ok (k, { kms with sessionKeys := mapSet kms.sessionKeys keyId k })

/-- `EncryptionService.generateKeyPair` (chat-service.ts lines 806–820):
a random 256-bit key (`freshKey` models the random draw) stored under the
given key id when truthy, else under a freshly generated id; both legacy
fields hold the same hex material. -/
def generateKeyPair (cfg : EncryptionConfig) (keys : KeyMap) (keyId : Option String)
    (freshKey freshKeyId : String) (now : Nat) : EncryptionKey × KeyMap :=
  let keyId_ := if strTruthy keyId then keyId.getD "" else freshKeyId
  let k : EncryptionKey := ⟨freshKey, freshKey, keyId_, cfg.algorithm, now, none⟩
  (k, mapSet keys keyId_ k)

/-- `EncryptionService.generateKeyFromPassword` (chat-service.ts lines
825–847): PBKDF2-derive material from the password and the supplied salt
(a fresh random salt when the argument is falsy). -/
def generateKeyFromPassword (cm : CryptoModel) (cfg : EncryptionConfig) (keys : KeyMap)
    (password : String) (salt : Option String) (freshSalt freshKeyId : String)
    (now : Nat) : EncryptionKey × KeyMap :=
  let saltHex := if strTruthy salt then salt.getD "" else freshSalt
  let derived := cm.pbkdf2 password saltHex cfg.iterations
  let k : EncryptionKey := ⟨derived, derived, freshKeyId, cfg.algorithm, now, some saltHex⟩
  (k, mapSet keys freshKeyId k)

/-- `EncryptionService.encrypt` (chat-service.ts lines 852–900).  Key
resolution: the key-management service first (when a truthy key id and a
service are supplied), then the local key table, then a freshly generated
key pair as fallback; the final missing-key check is unreachable.  The
content is encrypted with AES-CBC under a PBKDF2 key derived from the
resolved key's `privateKey` material and a fresh salt, and the
self-describing envelope records salt, IV and iteration count. -/
def encrypt (cm : CryptoModel) (cfg : EncryptionConfig) (keys : KeyMap)
    (kms : Option KmsState) (keyId : Option String) (content : String)
    (freshKey freshKeyId freshSalt freshIv : String) (now : Nat) :
    Except String (EncryptedData × KeyMap) :=
  let key1 : Option EncryptionKey :=
    match kms with
    | some svc => if strTruthy keyId then kmsGetKey svc (keyId.getD "") else none
    | none => none
  let key2 : Option EncryptionKey :=
    match key1 with
    | some k => some k
    | none => if strTruthy keyId then mapGet keys (keyId.getD "") else none
  let step3 : Option EncryptionKey × KeyMap :=
    match key2 with
    | some k => (some k, keys)
    | none =>
      let g := generateKeyPair cfg keys none freshKey freshKeyId now
      (some g.1, g.2)
  match step3.1 with
  | none => .error "Encryption key not found"
  | some key =>
    let derivedKey := cm.pbkdf2 key.privateKey freshSalt cfg.iterations
    let ct := cm.aesEnc derivedKey freshIv content
    .ok (⟨ct, freshIv, freshSalt, "", cfg.algorithm, cfg.keyDerivation, cfg.iterations⟩,
         step3.2)

/-- `EncryptionService.decrypt` (chat-service.ts lines 905–952).  Key
resolution: the key-management service first (when supplied), then the
local key table; a missing key raises.  The key is re-derived with PBKDF2
from the envelope's salt and iteration count, the content is AES-CBC
decrypted, and an empty decryption result is treated as a failure. -/
def decrypt (cm : CryptoModel) (keys : KeyMap) (kms : Option KmsState)
    (encryptedData : EncryptedData) (keyId : String) : Except String String :=
  let key1 : Option EncryptionKey :=
    match kms with
    | some svc => kmsGetKey svc keyId
    | none => none
  let key2 : Option EncryptionKey :=
    match key1 with
    | some k => some k
    | none => mapGet keys keyId
  match key2 with
  | none => .error "Decryption key not found"
  | some key =>
    let derivedKey := cm.pbkdf2 key.privateKey encryptedData.salt encryptedData.iterations
    let content := cm.aesDec derivedKey encryptedData.iv encryptedData.encryptedContent
    if content = "" then .error "Decryption failed - invalid key or corrupted data"
    else .ok content

/-! ### Predicates and concrete demonstration data -/

/-- Size contribution of a key under a payload-complete environment: the
truthy `metadata.size` of the decoded entity, `0` otherwise. -/
def keySize (env : RemoteEnv) (k : String) : Nat :=
  match env.getEntity k with
  | .error _ => 0
  | .ok e =>
    match e.value with
    | some (some m) => m.metaSize.getD 0
    | _ => 0

/-- Every key in the table carries the same material under both legacy
field names. -/
def symKeys (m : KeyMap) : Prop :=
  ∀ p ∈ m, p.2.publicKey = p.2.privateKey

/-- Demonstration memory records. -/
def memA : Memory := ⟨"a", "alpha", "conversation", "general", [], "0xabc", some 10⟩

/-- Second demonstration memory record. -/
def memB : Memory := ⟨"b", "beta", "conversation", "general", [], "0xabc", some 20⟩

/-- Demonstration entities with inline payloads. -/
def entityA : Entity := ⟨"ka", some (some memA), none⟩

/-- Second demonstration entity. -/
def entityB : Entity := ⟨"kb", some (some memB), none⟩

/-- A remote environment in which every RPC operation throws. -/
def envFail : RemoteEnv where
  listOwnedPayload := .error ()
  listOwnedAll := .error ()
  getEntity := fun _ => .error ()
  deleteEntity := fun _ => .error ()
  createEntity := fun _ => .error ()

/-- A remote environment whose bulk owner query yields zero entities while
the point-fetch path can still recover `entityA` under its key; remote
enumeration of all keys fails, so only the local key index can reach it. -/
def envHidden : RemoteEnv where
  listOwnedPayload := .ok []
  listOwnedAll := .error ()
  getEntity := fun k => if k = "ka" then .ok entityA else .error ()
  deleteEntity := fun _ => .error ()
  createEntity := fun _ => .error ()

/-- Adapter state whose local key index caches the key of `entityA`. -/
def stCached : ArkivState := ⟨["ka"], 0, false⟩

/-- A healthy remote environment: enumeration finds `entityA` and
`entityB`, point fetches always return a payload-bearing entity, and the
write operations succeed. -/
def envOk : RemoteEnv where
  listOwnedPayload := .ok [entityA, entityB]
  listOwnedAll := .ok [entityA, entityB]
  getEntity := fun k => if k = "ka" then .ok entityA else .ok entityB
  deleteEntity := fun _ => .ok ()
  createEntity := fun _ => .ok ("kc", "0xtx")

/-- A remote environment whose point fetch always returns an entity that
still lacks a value but whose `toText()` yields a truthy, unparseable
string: every recovery fetch resolves to absent, yet the program resets
the failure counter before the parse throws. -/
def envParseFail : RemoteEnv where
  listOwnedPayload := .ok []
  listOwnedAll := .error ()
  getEntity := fun k => .ok ⟨k, none, some none⟩
  deleteEntity := fun _ => .error ()
  createEntity := fun _ => .error ()

/-- Key material derived for record `"r1"` with salt `"s1"` under the
master secret `"master"`. -/
def keyMat0 : String := "master_r1_s1"

/-- The derived key for record `"r1"`. -/
def key0 : EncryptionKey := ⟨keyMat0, keyMat0, "memory_r1", "AES-256-GCM", 0, some "s1"⟩

/-- A key-management state initialized with the master secret `"master"`. -/
def kms0 : KmsState := ⟨some "master", []⟩

/-- `kms0` after deriving the key for record `"r1"` with salt `"s1"`. -/
def kms1 : KmsState := ⟨some "master", [("memory_r1", key0)]⟩

/-- The envelope produced by encrypting the empty plaintext under `key0`
with the demonstration primitives. -/
def edEmpty : EncryptedData := ⟨"", "iv1", "salt1", "", "AES-256-GCM", "PBKDF2", 100000⟩

/-- The envelope produced by encrypting `"x"` under `key0` with the
demonstration primitives. -/
def edX : EncryptedData := ⟨"x", "iv1", "salt1", "", "AES-256-GCM", "PBKDF2", 100000⟩

/-! ### Helper lemmas -/

/-- Once the breaker has tripped, `entityToMemory` leaves the state
untouched whatever the entity looks like. -/
lemma entityToMemory_state_of_skip (env : RemoteEnv) (st : ArkivState) (e : Entity)
    (h : st.skipIndividualFetch = true) : (entityToMemory env st e).state = st := by
  unfold entityToMemory
  cases hv : e.value <;> simp [h, hv]

/-- Once the breaker has tripped, a whole batch conversion leaves the state
untouched. -/
lemma convertEntities_state_of_skip (env : RemoteEnv) (st : ArkivState) (es : List Entity)
    (h : st.skipIndividualFetch = true) : (convertEntities env st es).2 = st := by
  induction es generalizing st with
  | nil => rfl
  | cons e es ih =>
    have hst := entityToMemory_state_of_skip env st e h
    simp only [convertEntities]
    rw [hst, ih st h]

/-! ### Claims -/

/-- C1 (amended): in `entityToMemory`, each failed individual recovery
fetch that yields no truthy `toText()` text (the point fetch throws, or
the fetched entity still lacks a value and `toText()` yields nothing)
increments the consecutive-failure counter, and the breaker trips exactly
when the counter reaches 5; once tripped it stays tripped for the rest of
the session, and every subsequent entity lacking inline payload resolves
to `none` immediately with no fetch attempted; a successful recovery fetch
resets the counter to zero — and so does any fetch whose `toText()`
returns a truthy string, EVEN when that string fails to parse and the
entity resolves to absent: the counter is reset before the parse, so such
failed fetches reset rather than increment the counter (last conjunct,
with `parsed = none`), and on their own they never trip the breaker (see
the counterexample `unparseable_text_resets_counter`). -/
theorem breaker_contract :
    (∀ env st e, st.skipIndividualFetch = true → e.value = none →
      entityToMemory env st e = ⟨none, st, false⟩) ∧
    (∀ env st es, st.skipIndividualFetch = true →
      (convertEntities env st es).2.skipIndividualFetch = true) ∧
    (∀ env st e, st.skipIndividualFetch = false → e.value = none →
      (env.getEntity e.key = .error () ∨
        (∃ full, env.getEntity e.key = .ok full ∧ full.value = none ∧
          full.textWhenNoValue = none)) →
      (entityToMemory env st e).result = none ∧
      (entityToMemory env st e).fetched = true ∧
      (entityToMemory env st e).state.individualFetchFailures =
        st.individualFetchFailures + 1 ∧
      (entityToMemory env st e).state.skipIndividualFetch =
        decide (st.individualFetchFailures + 1 ≥ 5)) ∧
    (∀ env st e full d, st.skipIndividualFetch = false → e.value = none →
      env.getEntity e.key = .ok full → full.value = some d →
      entityToMemory env st e =
        ⟨d, { st with individualFetchFailures := 0 }, true⟩) ∧
    (∀ env st e full parsed, st.skipIndividualFetch = false → e.value = none →
      env.getEntity e.key = .ok full → full.value = none →
      full.textWhenNoValue = some parsed →
      entityToMemory env st e =
        ⟨parsed, { st with individualFetchFailures := 0,
                           skipIndividualFetch :=
                             decide (st.individualFetchFailures + 1 ≥ 5) }, true⟩) := by
  refine ⟨?_, ?_, ?_, ?_, ?_⟩
  · intro env st e h hv
    unfold entityToMemory
    simp [h, hv]
  · intro env st es h
    rw [convertEntities_state_of_skip env st es h]
    exact h
  · intro env st e h hv hfail
    rcases hfail with herr | ⟨full, hok, hnv, hnt⟩
    · unfold entityToMemory
      simp [h, hv, herr]
    · unfold entityToMemory
      simp [h, hv, hok, hnv, hnt]
  · intro env st e full d h hv hok hfv
    unfold entityToMemory
    simp [h, hv, hok, hfv]
  · intro env st e full parsed h hv hok hfv hft
    unfold entityToMemory
    simp [h, hv, hok, hfv, hft]

/-- C1 counterexample: against `envParseFail` — every recovery fetch
returns an entity still lacking a value whose `toText()` is truthy but
unparseable, so every recovery fetch resolves to absent — a single failed
fetch leaves the counter at 0 instead of incrementing it, and five
consecutive failed fetches leave the state exactly where it started:
counter 0, breaker untripped.  This refutes the original claim that each
failed recovery fetch increments the counter and that 5 consecutive
failures trip the breaker. -/
theorem unparseable_text_resets_counter :
    (entityToMemory envParseFail ⟨[], 0, false⟩ ⟨"k", none, none⟩).result = none ∧
    (entityToMemory envParseFail ⟨[], 0, false⟩ ⟨"k", none, none⟩).fetched = true ∧
    (entityToMemory envParseFail ⟨[], 0, false⟩
      ⟨"k", none, none⟩).state.individualFetchFailures = 0 ∧
    convertEntities envParseFail ⟨[], 0, false⟩ (List.replicate 5 ⟨"k", none, none⟩) =
      ([], ⟨[], 0, false⟩) := by
  refine ⟨rfl, rfl, rfl, ?_⟩
  rfl

/-- Witness for the amended C1: applies `breaker_contract` at concrete
inputs — a tripped breaker short-circuits an entity lacking payload, a
failing fetch at failure count 4 trips the breaker, and a fetch whose
`toText()` text is truthy but unparseable resolves to absent while
resetting the counter. -/
theorem breaker_contract_witness :
    entityToMemory envFail ⟨[], 2, true⟩ ⟨"k", none, none⟩ = ⟨none, ⟨[], 2, true⟩, false⟩ ∧
    (entityToMemory envFail ⟨[], 4, false⟩ ⟨"k", none, none⟩).state.skipIndividualFetch =
      decide (4 + 1 ≥ 5) ∧
    entityToMemory envParseFail ⟨[], 3, false⟩ ⟨"k", none, none⟩ =
      ⟨none, ⟨[], 0, false⟩, true⟩ := by
  refine ⟨breaker_contract.1 envFail ⟨[], 2, true⟩ ⟨"k", none, none⟩ rfl rfl,
    (breaker_contract.2.2.1 envFail ⟨[], 4, false⟩ ⟨"k", none, none⟩ rfl rfl
      (Or.inl rfl)).2.2.2, ?_⟩
  exact breaker_contract.2.2.2.2 envParseFail ⟨[], 3, false⟩ ⟨"k", none, none⟩
    ⟨"k", none, some none⟩ none rfl rfl rfl rfl rfl

/-- C5: after a successful `deleteMemory` the key is absent from the local
key index and the call returns `true`; a failed remote delete returns
`false` (no exception) and leaves the index unchanged; after a successful
`uploadMemory` the returned entity key is present in the index. -/
theorem key_index_coherence :
    (∀ env st k, env.deleteEntity k = .ok () →
      (deleteMemory env st k).1 = true ∧ k ∉ (deleteMemory env st k).2.entityKeys) ∧
    (∀ env st k, env.deleteEntity k = .error () →
      deleteMemory env st k = (false, st)) ∧
    (∀ env st m r st2, uploadMemory env st m = .ok (r, st2) →
      r.entityKey ∈ st2.entityKeys) := by
  refine ⟨?_, ?_, ?_⟩
  · intro env st k h
    unfold deleteMemory
    rw [h]
    refine ⟨rfl, ?_⟩
    simp [indexRemove]
  · intro env st k h
    unfold deleteMemory
    rw [h]
  · intro env st m r st2 h
    unfold uploadMemory at h
    cases hc : env.createEntity m with
    | error e => rw [hc] at h; exact absurd h (by simp)
    | ok p =>
      rw [hc] at h
      obtain ⟨key, tx⟩ := p
      simp only [Except.ok.injEq, Prod.mk.injEq] at h
      obtain ⟨hr, hst⟩ := h
      subst hst
      rw [← hr]
      simp only [indexAdd]
      by_cases hk : key ∈ st.entityKeys
      · simp [hk]
      · simp [hk]

/-- Witness for C5: applies `key_index_coherence` in the healthy
environment (successful delete and create) and the failing environment. -/
theorem key_index_coherence_witness :
    ((deleteMemory envOk stCached "ka").1 = true ∧
      "ka" ∉ (deleteMemory envOk stCached "ka").2.entityKeys) ∧
    deleteMemory envFail stCached "ka" = (false, stCached) ∧
    "kc" ∈ (⟨["ka", "kc"], 0, false⟩ : ArkivState).entityKeys := by
  refine ⟨key_index_coherence.1 envOk stCached "ka" rfl,
    key_index_coherence.2.1 envFail stCached "ka" rfl,
    key_index_coherence.2.2 envOk stCached memA ⟨"kc", "0xtx"⟩ ⟨["ka", "kc"], 0, false⟩ rfl⟩

/-- Under a payload-complete environment (every point fetch returns an
entity with an inline payload) the sampling loop of `getStorageStats` adds
up exactly the per-key `keySize` contributions and leaves the state
unchanged. -/
lemma sampleSizes_eq (env : RemoteEnv)
    (hpc : ∀ k e, env.getEntity k = .ok e → e.value ≠ none) (st : ArkivState)
    (ks : List String) : sampleSizes env st ks = ((ks.map (keySize env)).sum, st) := by
  induction ks generalizing st with
  | nil => rfl
  | cons k ks ih =>
    simp only [sampleSizes, List.map_cons, List.sum_cons]
    cases hg : env.getEntity k with
    | error e => simp [retrieveMemory, hg, keySize, ih st]
    | ok e =>
      cases hv : e.value with
      | none => exact absurd hv (hpc k e hg)
      | some d =>
        cases d <;> simp [retrieveMemory, hg, entityToMemory, hv, keySize, ih st]

/-- C7: `getStorageStats` samples exactly the first 20 known keys, sets
`averageSize` to the rounded mean of the sampled metadata sizes (0 when
there are no keys), reports `totalMemories` as the total number of known
keys, and extrapolates `totalSize` as `averageSize` times that total. -/
theorem storage_stats_spec (env : RemoteEnv) (st : ArkivState)
    (hpc : ∀ k e, env.getEntity k = .ok e → e.value ≠ none) :
    (getStorageStats env st).1.totalMemories = (getAllEntityKeys env st).1.length ∧
    (getStorageStats env st).1.pinnedMemories = (getAllEntityKeys env st).1.length ∧
    (getStorageStats env st).1.totalSize =
      (if (getAllEntityKeys env st).1 = [] then 0
       else jsRound (((getAllEntityKeys env st).1.take 20).map (keySize env)).sum
         ((getAllEntityKeys env st).1.take 20).length) *
        (getAllEntityKeys env st).1.length := by
  simp only [getStorageStats]
  rw [sampleSizes_eq env hpc]
  refine ⟨trivial, trivial, ?_⟩
  by_cases hk : (getAllEntityKeys env st).1 = []
  · simp [hk]
  · have hlen : ((getAllEntityKeys env st).1.take 20).length ≠ 0 := by
      rw [List.length_take]
      simp only [ne_eq, Nat.min_eq_zero_iff]
      push_neg
      exact ⟨by omega, fun h => hk (List.length_eq_zero.mp h)⟩
    simp [hk, hlen]

/-- Witness for C7: applies `storage_stats_spec` to the healthy
environment holding two records of sizes 10 and 20: two known keys,
average 15, extrapolated total 30. -/
theorem storage_stats_spec_witness :
    (getStorageStats envOk stCached).1.totalMemories = 2 ∧
    (getStorageStats envOk stCached).1.totalSize = 30 := by
  have hpc : ∀ k e, envOk.getEntity k = .ok e → e.value ≠ none := by
    intro k e h
    by_cases hk : k = "ka" <;>
      simp only [envOk, hk, if_true, if_false, Except.ok.injEq, reduceIte] at h <;>
      rw [← h] <;> simp [entityA, entityB]
  have h := storage_stats_spec envOk stCached hpc
  exact ⟨by rw [h.1]; rfl, by rw [h.2.2]; rfl⟩

/-- The empty search text matches every memory. -/
lemma matchesSearch_empty (m : Memory) : matchesSearch "" m = true := by
  simp [matchesSearch]

/-- C4 counterexample: with a non-empty owner argument, zero bulk results
and a recoverable cached key, `searchMemories` returns the empty list —
the owner-filter branch returns before the zero-result fallback check, so
the exhaustive fallback tier never runs even though point-fetching the
cached key would recover `memA`. -/
theorem search_owner_skips_fallback :
    (searchMemories envHidden stCached "" (some "0xabc") 50).1 = [] ∧
    (searchMemoriesFallback envHidden stCached "" 50).1 = [memA] := by
  constructor <;> rfl

/-- C4 amended: when no owner filter is supplied, zero primary results and
an untripped breaker make `searchMemories` return exactly the fallback
tier's result; and when remote enumeration fails, the fallback tier
point-fetches precisely the cached keys of the Local Key Index (the empty
query filters nothing), truncated to the limit. -/
theorem search_fallback_completeness (env : RemoteEnv) (st : ArkivState) (limit : Nat)
    (hskip : st.skipIndividualFetch = false)
    (hlist : env.listOwnedPayload = .ok []) :
    searchMemories env st "" none limit = searchMemoriesFallback env st "" limit ∧
    (env.listOwnedAll = .error () → st.entityKeys ≠ [] →
      (searchMemoriesFallback env st "" limit).1 =
        (memoriesFromKeys env st st.entityKeys).1.take limit) := by
  constructor
  · unfold searchMemories
    rw [hlist]
    rcases hfb : searchMemoriesFallback env st "" limit with ⟨l, s⟩
    simp only [convertEntities, List.filter_nil, ownerTruthy, List.take_nil,
      List.length_nil, hskip, hfb]
    simp only [Bool.not_false, Bool.and_true, decide_True, if_true]
    cases l <;> simp
  · intro herr hne
    unfold searchMemoriesFallback getAllMemoriesDirectly getAllEntityKeys
    rw [herr]
    simp only [ne_eq, hne, not_false_eq_true, if_true, reduceIte]
    congr 1
    rw [List.filter_eq_self]
    intro m _
    exact matchesSearch_empty m

/-- Witness for the amended C4: applies `search_fallback_completeness` to
the environment whose bulk listing is empty while the cached key `"ka"`
still reaches `memA`. -/
theorem search_fallback_completeness_witness :
    searchMemories envHidden stCached "" none 50 =
      searchMemoriesFallback envHidden stCached "" 50 ∧
    (searchMemoriesFallback envHidden stCached "" 50).1 =
      (memoriesFromKeys envHidden stCached stCached.entityKeys).1.take 50 := by
  have h := search_fallback_completeness envHidden stCached 50 rfl rfl
  exact ⟨h.1, h.2 rfl (by decide)⟩

/-- C6 counterexample: when the owner listing throws, the all-keys enumeration
fallback also throws and the Local Key Index is empty, `searchMemories`
returns the empty list as a successful result instead of propagating the
enumeration failure to its caller. -/
theorem enumeration_failure_swallowed :
    searchMemories envFail ⟨[], 0, false⟩ "q" none 20 = ([], ⟨[], 0, false⟩) := by
  rfl

/-- C6 amended: an exception while fetching or decoding a single entity is
absorbed — the entity is skipped and the batch continues with the
remaining entities; an enumeration-level failure is absorbed as well:
after the Local Key Index fallback is exhausted, `searchMemories` returns
an empty successful result rather than propagating the error. -/
theorem failure_absorption :
    (∀ env st e es, (entityToMemory env st e).result = none →
      convertEntities env st (e :: es) =
        convertEntities env (entityToMemory env st e).state es) ∧
    (∀ env st q o l, env.listOwnedPayload = .error () →
      env.listOwnedAll = .error () → st.entityKeys = [] →
      searchMemories env st q o l = ([], st)) := by
  constructor
  · intro env st e es h
    simp only [convertEntities, h]
  · intro env st q o l h1 h2 h3
    unfold searchMemories searchMemoriesFallback getAllMemoriesDirectly getAllEntityKeys
    rw [h1, h2]
    simp [h3, memoriesFromKeys]

/-- Witness for the amended C6: a throwing point fetch skips the bad
entity but still converts `entityA`, and a fully failing environment with
an empty key cache yields the empty successful result. -/
theorem failure_absorption_witness :
    convertEntities envFail ⟨[], 0, false⟩ (⟨"k", none, none⟩ :: [entityA]) =
      convertEntities envFail
        (entityToMemory envFail ⟨[], 0, false⟩ ⟨"k", none, none⟩).state [entityA] ∧
    searchMemories envFail ⟨[], 0, false⟩ "x" none 5 = ([], ⟨[], 0, false⟩) := by
  exact ⟨failure_absorption.1 envFail ⟨[], 0, false⟩ ⟨"k", none, none⟩ [entityA] rfl,
    failure_absorption.2 envFail ⟨[], 0, false⟩ "x" none 5 rfl rfl rfl⟩

/-- The key id `memory_<recordId>` is never the empty string. -/
lemma memory_keyId_ne (R : String) : ("memory_" ++ R) ≠ "" := by
  intro h
  have h2 : ("memory_" ++ R).length = ("" : String).length := by rw [h]
  rw [String.length_append, show ("memory_" : String).length = 7 from rfl,
    show ("" : String).length = 0 from rfl] at h2
  omega

/-- Looking up the key just stored finds it. -/
lemma mapGet_mapSet_self (m : KeyMap) (k : String) (v : EncryptionKey) :
    mapGet (mapSet m k v) k = some v := by
  simp [mapGet, mapSet, List.lookup]

/-- Looking up the key just stored in a key-management state finds it. -/
lemma kmsGetKey_set_self (mk : Option String) (m : KeyMap) (k : String)
    (v : EncryptionKey) : kmsGetKey ⟨mk, mapSet m k v⟩ k = some v :=
  mapGet_mapSet_self m k v

/-- Storing a symmetric key preserves the symmetric-material invariant. -/
lemma symKeys_mapSet (m : KeyMap) (k : String) (v : EncryptionKey)
    (hm : symKeys m) (hv : v.publicKey = v.privateKey) : symKeys (mapSet m k v) := by
  intro p hp
  rcases List.mem_cons.mp hp with h | h
  · rw [h]
    exact hv
  · exact hm p h

/-- Explicit form of a successful `generateMemoryKey` call: with a
non-empty master secret and a truthy explicit salt the derived key is
fully determined by `(masterKey, memoryId, salt)`. -/
lemma generateMemoryKey_ok (kms : KmsState) (master R S fs : String) (t : Nat)
    (hmk : kms.masterKey = some master) (hm : master ≠ "") (hS : S ≠ "") :
    generateMemoryKey kms R (some S) fs t =
      .ok (⟨master ++ "_" ++ R ++ "_" ++ S, master ++ "_" ++ R ++ "_" ++ S,
            "memory_" ++ R, "AES-256-GCM", t, some S⟩,
           ⟨kms.masterKey,
            mapSet kms.sessionKeys ("memory_" ++ R)
              ⟨master ++ "_" ++ R ++ "_" ++ S, master ++ "_" ++ R ++ "_" ++ S,
               "memory_" ++ R, "AES-256-GCM", t, some S⟩⟩) := by
  unfold generateMemoryKey
  rw [hmk]
  simp [hm, hS, strTruthy]

/-- `encrypt` with a truthy key id resolved by the key-management service
produces the self-describing envelope built from that key's material. -/
lemma encrypt_with_kms_key (cm : CryptoModel) (cfg : EncryptionConfig) (keys : KeyMap)
    (kms : KmsState) (kid : String) (k : EncryptionKey) (content fk fkid fsalt fiv : String)
    (t : Nat) (hkid : kid ≠ "") (hk : kmsGetKey kms kid = some k) :
    encrypt cm cfg keys (some kms) (some kid) content fk fkid fsalt fiv t =
      .ok (⟨cm.aesEnc (cm.pbkdf2 k.privateKey fsalt cfg.iterations) fiv content,
            fiv, fsalt, "", cfg.algorithm, cfg.keyDerivation, cfg.iterations⟩, keys) := by
  unfold encrypt
  simp [strTruthy, hkid, hk]

/-- `decrypt` with a key resolved by the key-management service re-derives
the PBKDF2 key from the envelope's salt and iteration count and fails
exactly when the decrypted content is empty. -/
lemma decrypt_with_kms_key (cm : CryptoModel) (keys : KeyMap) (kms : KmsState)
    (ed : EncryptedData) (kid : String) (k : EncryptionKey)
    (hk : kmsGetKey kms kid = some k) :
    decrypt cm keys (some kms) ed kid =
      (if cm.aesDec (cm.pbkdf2 k.privateKey ed.salt ed.iterations) ed.iv ed.encryptedContent
          = "" then
        .error "Decryption failed - invalid key or corrupted data"
       else
        .ok (cm.aesDec (cm.pbkdf2 k.privateKey ed.salt ed.iterations) ed.iv
          ed.encryptedContent)) := by
  unfold decrypt
  simp [hk]

/-- C2 counterexample: with the demonstration primitives, encrypting the
EMPTY plaintext under the key derived for `("master", "r1", "s1")` and
decrypting with the key derived from the same triple does not return the
plaintext — `decrypt` treats the empty decrypted string as a failure and
throws `Decryption failed`. -/
theorem empty_plaintext_roundtrip_fails :
    generateMemoryKey kms0 "r1" (some "s1") "zz" 0 = .ok (key0, kms1) ∧
    encrypt demoCrypto defaultConfig [] (some kms1) (some "memory_r1") ""
      "fk" "fkid" "salt1" "iv1" 0 = .ok (edEmpty, []) ∧
    decrypt demoCrypto [] (some kms1) edEmpty "memory_r1" =
      .error "Decryption failed - invalid key or corrupted data" := by
  refine ⟨?_, ?_, ?_⟩ <;> rfl

/-- C2 amended: for every NON-EMPTY plaintext `P`, record id `R` and
non-empty salt `S` (with a non-empty master secret), encrypting `P` under
the key derived by `generateMemoryKey` for `(master, R, S)` and decrypting
the envelope under a key derived from the same triple returns exactly `P`;
for the empty plaintext `decrypt` raises `Decryption failed` instead
(see the counterexample). -/
theorem encrypt_decrypt_roundtrip (cm : CryptoModel) (cfg : EncryptionConfig)
    (kmsA kmsB : KmsState) (master R S : String)
    (hm : master ≠ "") (hS : S ≠ "")
    (hA : kmsA.masterKey = some master) (hB : kmsB.masterKey = some master)
    (P : String) (hP : P ≠ "")
    (keysA keysB : KeyMap) (fs1 fs2 fk fkid fsalt fiv : String) (t1 t2 t3 : Nat)
    (kA : EncryptionKey) (stA : KmsState) (kB : EncryptionKey) (stB : KmsState)
    (ed : EncryptedData) (keysA2 : KeyMap)
    (h1 : generateMemoryKey kmsA R (some S) fs1 t1 = .ok (kA, stA))
    (h2 : generateMemoryKey kmsB R (some S) fs2 t2 = .ok (kB, stB))
    (henc : encrypt cm cfg keysA (some stA) (some kA.keyId) P fk fkid fsalt fiv t3 =
      .ok (ed, keysA2)) :
    decrypt cm keysB (some stB) ed kA.keyId = .ok P := by
  rw [generateMemoryKey_ok kmsA master R S fs1 t1 hA hm hS] at h1
  rw [generateMemoryKey_ok kmsB master R S fs2 t2 hB hm hS] at h2
  simp only [Except.ok.injEq, Prod.mk.injEq] at h1 h2
  obtain ⟨hkA, hstA⟩ := h1
  obtain ⟨hkB, hstB⟩ := h2
  subst hkA hstA hkB hstB
  rw [encrypt_with_kms_key cm cfg keysA _ _ _ P fk fkid fsalt fiv t3
    (memory_keyId_ne R) (kmsGetKey_set_self _ _ _ _)] at henc
  simp only [Except.ok.injEq, Prod.mk.injEq] at henc
  obtain ⟨hed, -⟩ := henc
  subst hed
  rw [decrypt_with_kms_key cm keysB _ _ _ _ (kmsGetKey_set_self _ _ _ _)]
  simp only
  rw [cm.aes_roundtrip]
  simp [hP]

/-- Witness for the amended C2: applies `encrypt_decrypt_roundtrip` to the
concrete derivation of `key0` and the plaintext `"x"`. -/
theorem encrypt_decrypt_roundtrip_witness :
    decrypt demoCrypto [] (some kms1) edX "memory_r1" = .ok "x" := by
  exact encrypt_decrypt_roundtrip demoCrypto defaultConfig kms0 kms0 "master" "r1" "s1"
    (by decide) (by decide) rfl rfl "x" (by decide) [] [] "zz" "ww" "fk" "fkid"
    "salt1" "iv1" 0 0 0 key0 kms1 key0 kms1 edX [] rfl rfl rfl

/-- C3 counterexample: with the empty string as the explicit salt
(`salt || …` is falsy), two `generateMemoryKey` calls with identical
`(masterSecret, recordId, salt)` substitute their own fresh random salts
and yield different key material and different salts. -/
theorem empty_salt_not_deterministic :
    (generateMemoryKey kms0 "r1" (some "") "aa" 0).toOption.map
      (fun p => (p.1.publicKey, p.1.privateKey, p.1.salt)) ≠
    (generateMemoryKey kms0 "r1" (some "") "bb" 0).toOption.map
      (fun p => (p.1.publicKey, p.1.privateKey, p.1.salt)) := by
  decide

/-- C3 amended: for a non-empty master secret and a NON-EMPTY explicit
salt, two `generateMemoryKey` calls with the same
`(masterSecret, recordId, salt)` — whatever their session caches, random
draws and timestamps — yield identical `publicKey` and `privateKey`
material and an identical salt. -/
theorem derive_deterministic (kmsX kmsY : KmsState) (master R S : String)
    (hm : master ≠ "") (hS : S ≠ "")
    (hX : kmsX.masterKey = some master) (hY : kmsY.masterKey = some master)
    (fs1 fs2 : String) (t1 t2 : Nat)
    (k1 : EncryptionKey) (st1 : KmsState) (k2 : EncryptionKey) (st2 : KmsState)
    (e1 : generateMemoryKey kmsX R (some S) fs1 t1 = .ok (k1, st1))
    (e2 : generateMemoryKey kmsY R (some S) fs2 t2 = .ok (k2, st2)) :
    k1.publicKey = k2.publicKey ∧ k1.privateKey = k2.privateKey ∧ k1.salt = k2.salt := by
  rw [generateMemoryKey_ok kmsX master R S fs1 t1 hX hm hS] at e1
  rw [generateMemoryKey_ok kmsY master R S fs2 t2 hY hm hS] at e2
  simp only [Except.ok.injEq, Prod.mk.injEq] at e1 e2
  obtain ⟨hk1, -⟩ := e1
  obtain ⟨hk2, -⟩ := e2
  subst hk1 hk2
  exact ⟨rfl, rfl, rfl⟩

/-- Witness for the amended C3: applies `derive_deterministic` to two
concrete derivations for `("master", "r1", "s1")` with different random
draws and timestamps. -/
theorem derive_deterministic_witness :
    key0.publicKey = key0.publicKey ∧ key0.privateKey = key0.privateKey ∧
      key0.salt = key0.salt := by
  exact derive_deterministic kms0 kms0 "master" "r1" "s1" (by decide) (by decide)
    rfl rfl "zz" "ww" 0 0 key0 kms1 key0 ⟨some "master", [("memory_r1", key0)]⟩
    rfl rfl

/-- C8: in the uninitialized state (no master secret set), every
derivation request — any record id, any optional salt, any random draw —
fails with the not-initialized error; no derivation succeeds before
`initializeWithPassword`. -/
theorem uninitialized_derivation_fails (kms : KmsState) (R : String)
    (salt : Option String) (fs : String) (t : Nat) (h : kms.masterKey = none) :
    generateMemoryKey kms R salt fs t =
      .error "Master key not initialized. Call initializeWithPassword() first." := by
  unfold generateMemoryKey
  rw [h]

/-- Witness for C8: applies `uninitialized_derivation_fails` to a fresh
uninitialized key-management state. -/
theorem uninitialized_derivation_fails_witness :
    generateMemoryKey ⟨none, []⟩ "r9" (some "s9") "zz" 3 =
      .error "Master key not initialized. Call initializeWithPassword() first." := by
  exact uninitialized_derivation_fails ⟨none, []⟩ "r9" (some "s9") "zz" 3 rfl

/-- C9: `encrypt` never fails for lack of a key: when the key id is absent
from both the key-management service and the local key table — and also
when no key id is supplied at all — it generates a fresh random key,
stores it, and returns an encrypted envelope built from that key. -/
theorem encrypt_missing_key_fallback :
    (∀ (cm : CryptoModel) (cfg : EncryptionConfig) (keys : KeyMap) (kms : KmsState)
      (kid content fk fkid fsalt fiv : String) (t : Nat),
      kmsGetKey kms kid = none → mapGet keys kid = none →
      encrypt cm cfg keys (some kms) (some kid) content fk fkid fsalt fiv t =
        .ok (⟨cm.aesEnc (cm.pbkdf2 fk fsalt cfg.iterations) fiv content,
              fiv, fsalt, "", cfg.algorithm, cfg.keyDerivation, cfg.iterations⟩,
             mapSet keys fkid ⟨fk, fk, fkid, cfg.algorithm, t, none⟩)) ∧
    (∀ (cm : CryptoModel) (cfg : EncryptionConfig) (keys : KeyMap)
      (kms : Option KmsState) (content fk fkid fsalt fiv : String) (t : Nat),
      encrypt cm cfg keys kms none content fk fkid fsalt fiv t =
        .ok (⟨cm.aesEnc (cm.pbkdf2 fk fsalt cfg.iterations) fiv content,
              fiv, fsalt, "", cfg.algorithm, cfg.keyDerivation, cfg.iterations⟩,
             mapSet keys fkid ⟨fk, fk, fkid, cfg.algorithm, t, none⟩)) := by
  constructor
  · intro cm cfg keys kms kid content fk fkid fsalt fiv t hk1 hk2
    unfold encrypt
    by_cases hkid : kid = ""
    · simp [hkid, strTruthy, generateKeyPair]
    · simp [strTruthy, hkid, hk1, hk2, generateKeyPair]
  · intro cm cfg keys kms content fk fkid fsalt fiv t
    unfold encrypt
    cases kms <;> simp [strTruthy, generateKeyPair]

/-- Witness for C9: applies `encrypt_missing_key_fallback` with a key id
unknown to both tables and with no key id at all. -/
theorem encrypt_missing_key_fallback_witness :
    encrypt demoCrypto defaultConfig [] (some kms0) (some "nokey") "hello"
      "fk" "fkid" "salt1" "iv1" 0 =
      .ok (⟨"hello", "iv1", "salt1", "", "AES-256-GCM", "PBKDF2", 100000⟩,
           [("fkid", ⟨"fk", "fk", "fkid", "AES-256-GCM", 0, none⟩)]) ∧
    encrypt demoCrypto defaultConfig [] none none "hello" "fk" "fkid" "salt1" "iv1" 0 =
      .ok (⟨"hello", "iv1", "salt1", "", "AES-256-GCM", "PBKDF2", 100000⟩,
           [("fkid", ⟨"fk", "fk", "fkid", "AES-256-GCM", 0, none⟩)]) := by
  exact ⟨encrypt_missing_key_fallback.1 demoCrypto defaultConfig [] kms0 "nokey"
      "hello" "fk" "fkid" "salt1" "iv1" 0 rfl rfl,
    encrypt_missing_key_fallback.2 demoCrypto defaultConfig [] none
      "hello" "fk" "fkid" "salt1" "iv1" 0⟩

/-- C10: every key-creating operation — `generateSessionKey`,
`generateMemoryKey`, `generateKeyPair`, `generateKeyFromPassword` — yields
a key whose `publicKey` equals its `privateKey` (one piece of symmetric
material under both legacy names), and each operation preserves the
invariant that every key stored in the session caches satisfies this
equality. -/
theorem symmetric_material_invariant :
    (∀ (kms : KmsState) (keyId : Option String) (fk fkid : String) (t : Nat),
      (generateSessionKey kms keyId fk fkid t).1.publicKey =
        (generateSessionKey kms keyId fk fkid t).1.privateKey) ∧
    (∀ (kms : KmsState) (R : String) (s : Option String) (fs : String) (t : Nat)
      (k : EncryptionKey) (st2 : KmsState),
      generateMemoryKey kms R s fs t = .ok (k, st2) →
      k.publicKey = k.privateKey) ∧
    (∀ (cfg : EncryptionConfig) (keys : KeyMap) (kid : Option String)
      (fk fkid : String) (t : Nat),
      (generateKeyPair cfg keys kid fk fkid t).1.publicKey =
        (generateKeyPair cfg keys kid fk fkid t).1.privateKey) ∧
    (∀ (cm : CryptoModel) (cfg : EncryptionConfig) (keys : KeyMap)
      (pw : String) (s : Option String) (fs fkid : String) (t : Nat),
      (generateKeyFromPassword cm cfg keys pw s fs fkid t).1.publicKey =
        (generateKeyFromPassword cm cfg keys pw s fs fkid t).1.privateKey) ∧
    (∀ (kms : KmsState) (keyId : Option String) (fk fkid : String) (t : Nat),
      symKeys kms.sessionKeys →
      symKeys (generateSessionKey kms keyId fk fkid t).2.sessionKeys) ∧
    (∀ (kms : KmsState) (R : String) (s : Option String) (fs : String) (t : Nat)
      (k : EncryptionKey) (st2 : KmsState),
      symKeys kms.sessionKeys → generateMemoryKey kms R s fs t = .ok (k, st2) →
      symKeys st2.sessionKeys) ∧
    (∀ (cfg : EncryptionConfig) (keys : KeyMap) (kid : Option String)
      (fk fkid : String) (t : Nat),
      symKeys keys → symKeys (generateKeyPair cfg keys kid fk fkid t).2) ∧
    (∀ (cm : CryptoModel) (cfg : EncryptionConfig) (keys : KeyMap)
      (pw : String) (s : Option String) (fs fkid : String) (t : Nat),
      symKeys keys → symKeys (generateKeyFromPassword cm cfg keys pw s fs fkid t).2) := by
  have hmem : ∀ (kms : KmsState) (R : String) (s : Option String) (fs : String) (t : Nat)
      (k : EncryptionKey) (st2 : KmsState),
      generateMemoryKey kms R s fs t = .ok (k, st2) →
      k.publicKey = k.privateKey ∧
        st2.sessionKeys = mapSet kms.sessionKeys ("memory_" ++ R) k := by
    intro kms R s fs t k st2 h
    unfold generateMemoryKey at h
    cases hmk : kms.masterKey with
    | none => rw [hmk] at h; exact absurd h (by simp)
    | some mk =>
      rw [hmk] at h
      dsimp only at h
      by_cases hmk2 : mk = ""
      · rw [if_pos hmk2] at h
        exact absurd h (by simp)
      · rw [if_neg hmk2] at h
        simp only [Except.ok.injEq, Prod.mk.injEq] at h
        obtain ⟨hk, hst⟩ := h
        subst hk hst
        exact ⟨rfl, rfl⟩
  refine ⟨fun _ _ _ _ _ => rfl, ?_, fun _ _ _ _ _ _ => rfl, fun _ _ _ _ _ _ _ _ => rfl,
    ?_, ?_, ?_, ?_⟩
  · intro kms R s fs t k st2 h
    exact (hmem kms R s fs t k st2 h).1
  · intro kms keyId fk fkid t hsym
    exact symKeys_mapSet _ _ _ hsym rfl
  · intro kms R s fs t k st2 hsym h
    obtain ⟨hpk, hst⟩ := hmem kms R s fs t k st2 h
    rw [hst]
    exact symKeys_mapSet _ _ _ hsym hpk
  · intro cfg keys kid fk fkid t hsym
    exact symKeys_mapSet _ _ _ hsym rfl
  · intro cm cfg keys pw s fs fkid t hsym
    exact symKeys_mapSet _ _ _ hsym rfl

/-- Witness for C10: applies `symmetric_material_invariant` to the
concrete derivation of `key0` from `kms0` and to the resulting cache. -/
theorem symmetric_material_invariant_witness :
    key0.publicKey = key0.privateKey ∧ symKeys kms1.sessionKeys := by
  refine ⟨symmetric_material_invariant.2.1 kms0 "r1" (some "s1") "zz" 0 key0 kms1 rfl, ?_⟩
  have h := symmetric_material_invariant.2.2.2.2.2.1 kms0 "r1" (some "s1") "zz" 0
    key0 kms1 (by intro p hp; exact absurd hp (List.not_mem_nil p)) rfl
  exact h
